import Mathlib

/-
Verification of the Bazel label-resolution and completion engine of
`src/bazel.rs`: a shallow embedding of `BazelContext` and the operations
`resolve_folder`, `resolve_load`, `render_as_load`, workspace discovery and
string completion, with theorems checking the documented behaviour.

Paths are modelled as lists of segments (`FsPath`); the filesystem and the
external build-system client are explicit parameters (`Filesystem`,
function-valued fields of `BazelContext`).  Components of the repository that
are outside `src/bazel.rs` (`label.rs`, `workspace.rs`, `file_type.rs`,
`client.rs`) are modelled from the specification, as marked on each
definition.
-/

/-! ## String utilities (embedding of the `str` operations used by bazel.rs) -/

def ofChars (l : List Char) : String := String.mk l

/-- Strip a leading run `pre` from `l`, returning the remainder
(embeds Rust `str::strip_prefix`). -/
def stripPre {α : Type} [DecidableEq α] : List α → List α → Option (List α)
  | [], l => some l
  | _ :: _, [] => none
  | a :: as, b :: bs => if a = b then stripPre as bs else none

def strStartsWith (s pre : String) : Bool := (stripPre pre.data s.data).isSome

def stripPrefixStr (s pre : String) : Option String := (stripPre pre.data s.data).map ofChars

def isInfixL {α : Type} [DecidableEq α] (pat : List α) : List α → Bool
  | [] => (stripPre pat ([] : List α)).isSome
  | x :: rest => (stripPre pat (x :: rest)).isSome || isInfixL pat rest

/-- Embeds Rust `str::contains` with a multi-character pattern. -/
def strContainsSub (s sub : String) : Bool := isInfixL sub.data s.data

/-- Embeds Rust `str::contains` with a character pattern. -/
def strContainsChar (s : String) (c : Char) : Bool := s.data.any (fun x => x == c)

/-- Embeds Rust `str::ends_with` with a character pattern. -/
def strEndsWithChar (s : String) (c : Char) : Bool :=
  match s.data.getLast? with
  | some x => x == c
  | none => false

def strEndsWithStr (s suf : String) : Bool := (stripPre suf.data.reverse s.data.reverse).isSome

def strLen (s : String) : Nat := s.data.length

def splitOnChar (sep : Char) : List Char → List (List Char)
  | [] => [[]]
  | x :: xs =>
      let r := splitOnChar sep xs
      if x = sep then [] :: r
      else
        match r with
        | [] => [[x]]
        | h :: t => (x :: h) :: t

def idxOfLast (c : Char) : List Char → Option Nat
  | [] => none
  | x :: xs =>
      match idxOfLast c xs with
      | some i => some (i + 1)
      | none => if x = c then some 0 else none

/-- The prefix of `s` up to and including the last occurrence of `c`
(embeds `s.rfind(c).map(|pos| &s[..pos + 1])` from bazel.rs). -/
def takeThroughLastChar (s : String) (c : Char) : Option String :=
  (idxOfLast c s.data).map (fun i => ofChars (s.data.take (i + 1)))

/-- Split at the first occurrence of the two-character pattern `[a, b]`,
returning the text before and after the pattern. -/
def splitFirst2 (a b : Char) : List Char → Option (List Char × List Char)
  | [] => none
  | [_] => none
  | x :: y :: rest =>
      if x = a ∧ y = b then some ([], y :: rest |>.drop 1)
      else (splitFirst2 a b (y :: rest)).map (fun p => (x :: p.1, p.2))

/-- Embeds Rust `str::lines` (final trailing newline produces no empty line). -/
def rustLines (s : String) : List String :=
  let l := splitOnChar '\n' s.data
  (if l.getLast? = some [] then l.dropLast else l).map ofChars

/-! ## Filesystem paths -/

/-- An absolute filesystem path as a list of segments; `[]` is the root. -/
abbrev FsPath := List String

/-- Embeds `Path::parent` (the root has no parent). -/
def pathParent (p : FsPath) : Option FsPath :=
  match p with
  | [] => none
  | _ :: _ => some p.dropLast

/-- Embeds `Path::file_name`. -/
def pathFileName (p : FsPath) : Option String := p.getLast?

/-- Embeds `PathBuf::from` on a rendered path string. -/
def pathOfString (s : String) : FsPath :=
  ((splitOnChar '/' s.data).map ofChars).filter (fun seg => seg ≠ "")

/-- Embeds `Path::join` with a string argument. -/
def joinStr (p : FsPath) (s : String) : FsPath := p ++ pathOfString s

/-- Embeds `Path::to_string_lossy` for a (relative) path. -/
def pathToString (p : FsPath) : String :=
  match p with
  | [] => ""
  | [x] => x
  | x :: xs => x ++ "/" ++ pathToString xs

def ancestorsRevAux : List String → List (List String)
  | [] => []
  | _ :: rest => rest :: ancestorsRevAux rest

/-- Embeds `path.ancestors().skip(1)`: the proper ancestors of `p`, nearest
first, ending with the root `[]`. -/
def properAncestors (p : FsPath) : List FsPath :=
  (ancestorsRevAux p.reverse).map List.reverse

/-! ## LspUrl and the data model -/

/-- Embeds `starlark_lsp::server::LspUrl` (the starlark and other variants
also carry a path, as consumed by `LspUrl::path()` in the completion code). -/
inductive LspUrl where
  | file (p : FsPath)
  | starlark (p : FsPath)
  | other (p : FsPath)
  deriving DecidableEq

def LspUrl.path : LspUrl → FsPath
  | .file p => p
  | .starlark p => p
  | .other p => p

/-- Modelled from the spec: `label.rs` is not among the provided sources.
A parsed label: optional repository name, optional package (multi-segment
directory path; `some []` is the repository root package, `none` means the
label is package-less/relative), and target name. -/
structure Label where
  repo : Option String
  package : Option (List String)
  name : String
  deriving DecidableEq

inductive FileKind where
  | file
  | dir
  deriving DecidableEq

/-- Embeds `ResolveLoadError` of bazel.rs. -/
inductive ResolveLoadError where
  | MissingCurrentFilePath (label : Label)
  | WrongScheme (scheme : String) (url : LspUrl)
  | MissingWorkspaceRoot (label : Label)
  | UnknownRepository (label : Label) (repo : String)
  | TargetNotFound (path : String)
  deriving DecidableEq

/-- Embeds `RenderLoadError` of bazel.rs. -/
inductive RenderLoadError where
  | MissingTargetFilename (path : FsPath)
  | WrongScheme (scheme : String) (target : LspUrl) (current : LspUrl)
  deriving DecidableEq

/-- Combined error type for the `anyhow::Result` returns of bazel.rs; the
collaborator and io failures carry no payload we depend on. -/
inductive LspError where
  | resolve (e : ResolveLoadError)
  | render (e : RenderLoadError)
  | parseErr
  | clientErr
  | ioErr
  deriving DecidableEq

/-- Modelled from the spec: `workspace.rs` is not among the provided sources,
so the `BazelWorkspace` accessors consumed by bazel.rs are abstract fields.
`get_repository_path` is a total function: `resolve_folder` in bazel.rs
applies it under `Option.map` on the workspace option and matches the result
against `Some`, so the per-name lookup itself unconditionally produces a
directory (the spec describes it as the repository directory for that name,
e.g. under the external output base). -/
structure BazelWorkspace where
  root : FsPath
  workspace_name : Option String
  get_repository_path : String → FsPath
  get_repository_for_lspurl : LspUrl → Option String
  get_repository_for_path : FsPath → Option (String × FsPath)
  get_repository_names : List String

/-- A repo mapping dump: apparent name to canonical name, as an association
list (the Rust HashMap, with its key set made explicit). -/
abbrev RepoMapping := List (String × String)

def lookupMap (m : RepoMapping) (k : String) : Option String :=
  (m.find? (fun e => e.1 == k)).map Prod.snd

/-- The context of bazel.rs: the workspace cache (`workspaces`) as visible to
one call, and the three build-system client collaborators, modelled from the
spec (`client.rs` is not among the provided sources): `infoF` is
`client.info` composed with `BazelWorkspace::from_bazel_info`,
`dumpRepoMapping` is `client.dump_repo_mapping`, and `queryF` is
`client.query` returning the raw newline-delimited output. -/
structure BazelContext where
  workspaces : List (FsPath × BazelWorkspace)
  infoF : FsPath → Except Unit BazelWorkspace
  dumpRepoMapping : BazelWorkspace → String → Except Unit RepoMapping
  queryF : BazelWorkspace → String → Except Unit String

/-- The filesystem collaborator: kind of each path (file/directory/absent),
whole-file read, and directory listing (which can fail, as `fs::read_dir`). -/
structure Filesystem where
  kind : FsPath → Option FileKind
  contents : FsPath → String
  listDir : FsPath → Except Unit (List String)

def Filesystem.pathExists (fs : Filesystem) (p : FsPath) : Bool := (fs.kind p).isSome

def Filesystem.isDir (fs : Filesystem) (p : FsPath) : Bool :=
  match fs.kind p with
  | some .dir => true
  | _ => false

def Filesystem.isFile (fs : Filesystem) (p : FsPath) : Bool :=
  match fs.kind p with
  | some .file => true
  | _ => false

/-- Modelled from the spec: `file_type.rs` is not among the provided sources.
The ordered fixed list of recognized build-file names tried in sequence by
`resolve_load`; the claims depend only on the iteration order being fixed. -/
def BUILD_FILE_NAMES : List String := ["BUILD", "BUILD.bazel"]

/-- Modelled from the spec: the file classification of `file_type.rs` —
build files are recognized by name, loadable (library) files by extension. -/
inductive FileType where
  | build
  | library
  | otherFile
  deriving DecidableEq

def FileType.from_name (name : String) : FileType :=
  if name ∈ BUILD_FILE_NAMES then .build
  else if strEndsWithStr name ".bzl" then .library
  else .otherFile

/-! ## Label parsing -/

/-- Modelled from the spec: the label grammar subset of §6.
`[@[repository]]//[package[/package...]][:name]`, or a package-less relative
form beginning with `:` or a bare name.  Repository is the substring after
`@` up to the first `/`; package is the substring between `//` and `:` (or
end of string), split on `/`; name is the substring after `:`, or, if
omitted, the last package segment. -/
def Label.parse (s : String) : Except LspError Label :=
  match splitFirst2 '/' '/' s.data with
  | some (_, after) =>
      let repo : Option String :=
        if strStartsWith s "@" then
          some (ofChars ((s.data.drop 1).takeWhile (fun c => c ≠ '/')))
        else none
      let pkgChars := after.takeWhile (fun c => c ≠ ':')
      let pkg : List String := ((splitOnChar '/' pkgChars).map ofChars).filter (fun seg => seg ≠ "")
      let name : String :=
        if after.any (fun c => c == ':') then ofChars ((after.dropWhile (fun c => c ≠ ':')).drop 1)
        else (pkg.getLast?).getD ""
      .ok { repo := repo, package := some pkg, name := name }
  | none =>
      if strStartsWith s ":" then
        .ok { repo := none, package := none, name := ofChars (s.data.drop 1) }
      else
        .ok { repo := none, package := none, name := s }

/-! ## Workspace discovery (bazel.rs lines 170-213) -/

/-- Embeds `infer_workspace_dir`: walk the proper ancestors of the current
file outward; the first one containing the `DO_NOT_BUILD_HERE` marker wins,
and that marker file's contents are read as the workspace root path.
Non-filesystem urls never resolve. -/
def infer_workspace_dir (fs : Filesystem) (current_file : LspUrl) : Option FsPath :=
  match current_file with
  | .file path =>
      ((properAncestors path).find?
          (fun dir => fs.pathExists (dir ++ ["DO_NOT_BUILD_HERE"]))).map
        (fun dir => pathOfString (fs.contents (dir ++ ["DO_NOT_BUILD_HERE"])))
  | _ => none

def lookupCache (l : List (FsPath × BazelWorkspace)) (d : FsPath) : Option BazelWorkspace :=
  (l.find? (fun e => e.1 == d)).map Prod.snd

/-- The known-root branch of `BazelContext::workspace`: cache hit returns the
snapshot, a miss invokes the build-system-info collaborator (whose failure
propagates).  The insertion into the cache is invisible within one call and
is omitted. -/
def workspaceForRoot (ctx : BazelContext) (d : FsPath) : Except LspError (Option BazelWorkspace) :=
  match lookupCache ctx.workspaces d with
  | some ws => .ok (some ws)
  | none =>
      match ctx.infoF d with
      | .ok ws => .ok (some ws)
      | .error _ => .error .clientErr

/-- Embeds `BazelContext::workspace` (bazel.rs lines 170-198). -/
def BazelContext.workspace (ctx : BazelContext) (fs : Filesystem)
    (workspace_dir : Option FsPath) (current_file : LspUrl) :
    Except LspError (Option BazelWorkspace) :=
  match workspace_dir with
  | some d => workspaceForRoot ctx d
  | none =>
      match infer_workspace_dir fs current_file with
      | some d => workspaceForRoot ctx d
      | none => .ok none

/-! ## Repo mapping and folder resolution (bazel.rs lines 216-316) -/

/-- Embeds `repo_mapping_for_file`: determine the repository containing the
current file (unknown yields the root repository name, the empty string) and
dump the repo mapping for it. -/
def repo_mapping_for_file (ctx : BazelContext) (workspace : BazelWorkspace)
    (current_file : LspUrl) : Except Unit RepoMapping :=
  ctx.dumpRepoMapping workspace ((workspace.get_repository_for_lspurl current_file).getD "")

/-- The `resolve_root` computation of `resolve_folder` (bazel.rs lines
245-291), including the early `UnknownRepository` return. -/
def resolve_root_for (ctx : BazelContext) (label : Label) (current_file : LspUrl)
    (workspace : Option BazelWorkspace) : Except ResolveLoadError (Option FsPath) :=
  match label.repo with
  | none =>
      match workspace.bind (fun ws => ws.get_repository_for_lspurl current_file) with
      | some repository_name =>
          .ok (workspace.map (fun ws => ws.get_repository_path repository_name))
      | none => .ok (workspace.map (fun ws => ws.root))
  | some repository =>
      let repo_mapping :=
        (workspace.bind (fun ws => (repo_mapping_for_file ctx ws current_file).toOption)).getD []
      let remote_repository_name := (lookupMap repo_mapping repository).getD repository
      if (match workspace with
          | some ws => ws.workspace_name == some repository
          | none => false) then
        .ok (workspace.map (fun ws => ws.root))
      else
        match workspace.map (fun ws => ws.get_repository_path remote_repository_name) with
        | some remote_repository_root => .ok (some remote_repository_root)
        | none => .error (.UnknownRepository label repository)

/-- Embeds `BazelContext::resolve_folder` (bazel.rs lines 230-316). -/
def resolve_folder (ctx : BazelContext) (label : Label) (current_file : LspUrl)
    (workspace : Option BazelWorkspace) : Except ResolveLoadError FsPath :=
  match resolve_root_for ctx label current_file workspace with
  | .error e => .error e
  | .ok resolve_root =>
      match label.package with
      | some package =>
          match resolve_root with
          | some root => .ok (root ++ package)
          | none => .error (.MissingWorkspaceRoot label)
      | none =>
          match current_file with
          | .file current_file_path =>
              match pathParent current_file_path with
              | some current_file_dir => .ok current_file_dir
              | none => .error (.MissingCurrentFilePath label)
          | _ => .error (.WrongScheme "file://" current_file)

/-! ## resolve_load (bazel.rs lines 519-546) -/

/-- Embeds `BazelContext::resolve_load`: parse the label, resolve its folder,
try the presumed filename, then each recognized build-file name in order,
else fail with `TargetNotFound` carrying the original text. -/
def resolve_load (ctx : BazelContext) (fs : Filesystem) (path : String)
    (current_file : LspUrl) (workspace_root : Option FsPath) : Except LspError LspUrl :=
  match Label.parse path with
  | .error e => .error e
  | .ok label =>
      match ctx.workspace fs workspace_root current_file with
      | .error e => .error e
      | .ok workspace =>
          match resolve_folder ctx label current_file workspace with
          | .error e => .error (.resolve e)
          | .ok folder =>
              let presumed_path := joinStr folder label.name
              if fs.pathExists presumed_path then .ok (.file presumed_path)
              else
                match BUILD_FILE_NAMES.find? (fun n => fs.pathExists (joinStr folder n)) with
                | some n => .ok (.file (joinStr folder n))
                | none => .error (.resolve (.TargetNotFound path))

/-! ## render_as_load (bazel.rs lines 548-606) -/

/-- The cross-package arm of `render_as_load`: locate a repository owning the
target, else strip the workspace root, else use the raw path; then compose
the `@repo//package:filename` form. -/
def renderCross (workspace : Option BazelWorkspace) (workspace_root : Option FsPath)
    (target_path : FsPath) : Except LspError String :=
  let pair : Option String × FsPath :=
    match workspace.bind (fun ws => ws.get_repository_for_path target_path) with
    | some (repository, rel) => (some repository, rel)
    | none =>
        match workspace_root.bind (fun root => (stripPre root target_path).map id) with
        | some rel => (none, rel)
        | none => (none, target_path)
  match pathFileName pair.2 with
  | some filename =>
      .ok ("@" ++ (pair.1.getD "") ++ "//" ++
        (((pathParent pair.2).map pathToString).getD "") ++ ":" ++ filename)
  | none => .error (.render (.MissingTargetFilename pair.2))

/-- Embeds `BazelContext::render_as_load`: same-package targets render as
`:` + filename; otherwise the cross-package form; non-file urls fail with
`WrongScheme`. -/
def render_as_load (ctx : BazelContext) (fs : Filesystem) (target : LspUrl)
    (current_file : LspUrl) (workspace_root : Option FsPath) : Except LspError String :=
  match ctx.workspace fs workspace_root current_file with
  | .error e => .error e
  | .ok workspace =>
      match target, current_file with
      | .file target_path, .file current_file_path =>
          if (match pathParent target_path, pathParent current_file_path with
              | some a, some b => a == b
              | _, _ => false) then
            match pathFileName target_path with
            | some filename => .ok (":" ++ filename)
            | none => .error (.render (.MissingTargetFilename target_path))
          else renderCross workspace workspace_root target_path
      | .file target_path, _ => renderCross workspace workspace_root target_path
      | _, _ => .error (.render (.WrongScheme "file://" target current_file))

/-! ## Completion (bazel.rs lines 318-428 and 666-774) -/

inductive StringCompletionType where
  | string
  | loadPath
  deriving DecidableEq

inductive CompletionItemKind where
  | module
  | folder
  | file
  | property
  deriving DecidableEq

/-- Embeds `starlark_lsp::completion::StringCompletionResult`. -/
structure StringCompletionResult where
  value : String
  insert_text : Option String
  insert_text_offset : Nat
  kind : CompletionItemKind
  deriving DecidableEq

inductive FilesystemCompletionRoot where
  | path (p : FsPath)
  | str (s : String)

inductive FilesystemFileCompletionOptions where
  | all
  | onlyLoadable
  | noFiles
  deriving DecidableEq

structure FilesystemCompletionOptions where
  directories : Bool
  files : FilesystemFileCompletionOptions
  targets : Bool

/-- Embeds `query_buildable_targets`: query the collaborator with the module
pattern followed by `*`; failures yield `none`; from each output line the
module prefix is stripped and non-matching lines are dropped. -/
def query_buildable_targets (ctx : BazelContext) (module : String)
    (workspace : Option BazelWorkspace) : Option (List String) :=
  match workspace with
  | none => none
  | some ws =>
      match ctx.queryF ws (module ++ "*") with
      | .error _ => none
      | .ok output => some ((rustLines output).filterMap (fun line => stripPrefixStr line module))

/-- The candidates one directory entry contributes in `get_filesystem_entries`
(the body of the `for entry in fs::read_dir(..)` loop, bazel.rs lines
335-408). -/
def entryResults (ctx : BazelContext) (fs : Filesystem) (workspace : Option BazelWorkspace)
    (options : FilesystemCompletionOptions) (render_base : String) (from_path : FsPath)
    (file_name : String) : List StringCompletionResult :=
  let path := from_path ++ [file_name]
  let file_type := FileType.from_name file_name
  if fs.isDir path && options.directories then
    [{ value := file_name,
       insert_text := some ((if strEndsWithChar render_base '/' || render_base == "" then "" else "/") ++ file_name),
       insert_text_offset := strLen render_base,
       kind := .folder }]
  else if fs.isFile path then
    if file_type = .build then
      if options.targets then
        match query_buildable_targets ctx
            (render_base ++ (if strEndsWithChar render_base ':' then "" else ":")) workspace with
        | some targets =>
            targets.map (fun target =>
              { value := target,
                insert_text := some ((if strEndsWithChar render_base ':' then "" else ":") ++ target),
                insert_text_offset := strLen render_base,
                kind := .property })
        | none => []
      else []
    else if options.files = FilesystemFileCompletionOptions.noFiles then []
    else if options.files = FilesystemFileCompletionOptions.onlyLoadable ∧ file_type ≠ .library then []
    else
      [{ value := file_name,
         insert_text := some ((if strEndsWithChar render_base ':' || render_base == "" then "" else ":") ++ file_name),
         insert_text_offset := strLen render_base,
         kind := .file }]
  else []

/-- Embeds `get_filesystem_entries` (bazel.rs lines 318-411): resolve the
completion root to a directory, list it (listing failures propagate) and
append each entry's candidates to `results`. -/
def get_filesystem_entries (ctx : BazelContext) (fs : Filesystem)
    (root : FilesystemCompletionRoot) (current_file : LspUrl)
    (workspace : Option BazelWorkspace) (options : FilesystemCompletionOptions)
    (results : List StringCompletionResult) :
    Except LspError (List StringCompletionResult) :=
  let resolved : Except LspError (FsPath × String) :=
    match root with
    | .path p => .ok (p, "")
    | .str str =>
        match Label.parse str with
        | .error e => .error e
        | .ok label =>
            match resolve_folder ctx label current_file workspace with
            | .error e => .error (.resolve e)
            | .ok dir => .ok (dir, str)
  match resolved with
  | .error e => .error e
  | .ok (from_path, render_base) =>
      match fs.listDir from_path with
      | .error _ => .error .ioErr
      | .ok entries =>
          .ok (results ++ entries.flatMap (entryResults ctx fs workspace options render_base from_path))

/-- Embeds the `offer_repository_names` classification (bazel.rs 675-678). -/
def offer_repository_names_for (current_value : String) : Bool :=
  current_value == "" || current_value == "@"
    || (strStartsWith current_value "@" && !strContainsChar current_value '/')
    || (!strContainsChar current_value '/' && !strContainsChar current_value ':')

/-- Embeds the `complete_directories` classification (bazel.rs 723-725). -/
def complete_directories_for (current_value : String) : Bool :=
  (!strStartsWith current_value "@" || strContainsSub current_value "//")
    && !strContainsChar current_value ':'

/-- Embeds the `complete_filenames` classification (bazel.rs 726-730). -/
def complete_filenames_for (current_value : String) : Bool :=
  (!strStartsWith current_value "@" || strContainsSub current_value "//")
    && (!strContainsChar current_value '/' || strContainsChar current_value ':')

/-- Embeds the `complete_targets` classification (bazel.rs 731). -/
def complete_targets_for (kind : StringCompletionType) (current_value : String) : Bool :=
  (match kind with | .string => true | .loadPath => false) && complete_filenames_for current_value

/-- The rendering of repository-name candidates (bazel.rs 695-708). -/
def repoNameCandidates (repo_names : List String) : List StringCompletionResult :=
  repo_names.map (fun name =>
    { value := "@" ++ name,
      insert_text := some ("@" ++ name ++ "//"),
      insert_text_offset := 0,
      kind := .module })

/-- The filesystem-enumeration half of `get_string_completion_options`
(bazel.rs 716-773), taking the already-computed repository-name candidates. -/
def completionEnumeration (ctx : BazelContext) (fs : Filesystem) (document_uri : LspUrl)
    (kind : StringCompletionType) (current_value : String)
    (workspace : Option BazelWorkspace) (names : List StringCompletionResult) :
    Except LspError (List StringCompletionResult) :=
  let complete_directories := complete_directories_for current_value
  let complete_filenames := complete_filenames_for current_value
  let complete_targets := complete_targets_for kind current_value
  if complete_directories || complete_filenames || complete_targets then
    match (if complete_directories && complete_filenames then
             (pathParent document_uri.path).map FilesystemCompletionRoot.path
           else
             (takeThroughLastChar current_value
                 (if complete_directories then '/' else ':')).map FilesystemCompletionRoot.str) with
    | some completion_root =>
        get_filesystem_entries ctx fs completion_root document_uri workspace
          { directories := complete_directories,
            files :=
              match kind, complete_filenames with
              | .loadPath, _ => .onlyLoadable
              | .string, true => .all
              | .string, false => .noFiles,
            targets := complete_targets }
          names
    | none => .ok names
  else .ok names

/-- Embeds `get_string_completion_options` (bazel.rs 666-774). -/
def get_string_completion_options (ctx : BazelContext) (fs : Filesystem)
    (document_uri : LspUrl) (kind : StringCompletionType) (current_value : String)
    (workspace_root : Option FsPath) : Except LspError (List StringCompletionResult) :=
  match ctx.workspace fs workspace_root document_uri with
  | .error e => .error e
  | .ok workspace =>
      let repo_mapping :=
        workspace.bind (fun ws => (repo_mapping_for_file ctx ws document_uri).toOption)
      let names : List StringCompletionResult :=
        if offer_repository_names_for current_value then
          match workspace with
          | some ws =>
              repoNameCandidates
                (match repo_mapping with
                 | some m => (m.map Prod.fst).filter (fun key => key ≠ "")
                 | none => ws.get_repository_names)
          | none => []
        else []
      completionEnumeration ctx fs document_uri kind current_value workspace names

/-! ## Specification-side definition for the load-resolution fallback -/

/-- The file-discovery convention of §4.5 as the spec words it (amended to
use plain existence, matching `Path::exists` in the source): the presumed
`folder/name` if it exists, else the first existing recognized build-file
name in the fixed order, else `TargetNotFound` with the original text. -/
def resolve_load_spec (fs : Filesystem) (folder : FsPath) (name : String)
    (original : String) : Except LspError LspUrl :=
  if fs.pathExists (joinStr folder name) then .ok (.file (joinStr folder name))
  else
    match BUILD_FILE_NAMES.find? (fun n => fs.pathExists (joinStr folder n)) with
    | some n => .ok (.file (joinStr folder n))
    | none => .error (.resolve (.TargetNotFound original))

/-! ## Concrete fixtures for the claim checks -/

/-- C1 fixture workspace: legacy name `main`, one known repository `known`. -/
def c1ws : BazelWorkspace :=
  { root := ["root"], workspace_name := some "main",
    get_repository_path := fun n => ["ext", n],
    get_repository_for_lspurl := fun _ => none,
    get_repository_for_path := fun _ => none,
    get_repository_names := ["known"] }

/-- C1 fixture context: empty repo mapping (identity translation). -/
def c1ctx : BazelContext :=
  { workspaces := [], infoF := fun _ => .error (),
    dumpRepoMapping := fun _ _ => .ok [],
    queryF := fun _ _ => .error () }

def c1label : Label := { repo := some "unknown", package := some [], name := "x" }

/-- C2 fixture workspace: legacy name `ws`. -/
def c2ws : BazelWorkspace :=
  { root := ["root"], workspace_name := some "ws",
    get_repository_path := fun n => ["ext", n],
    get_repository_for_lspurl := fun _ => none,
    get_repository_for_path := fun _ => none,
    get_repository_names := ["x"] }

/-- C2 fixture context: the repo mapping sends apparent name `x` to the
canonical name `ws`, which is also the legacy workspace name. -/
def c2ctx : BazelContext :=
  { workspaces := [], infoF := fun _ => .error (),
    dumpRepoMapping := fun _ _ => .ok [("x", "ws")],
    queryF := fun _ _ => .error () }

def c2label : Label := { repo := some "x", package := some ["p"], name := "" }

def c3ctx : BazelContext :=
  { workspaces := [], infoF := fun _ => .error (),
    dumpRepoMapping := fun _ _ => .error (),
    queryF := fun _ _ => .error () }

def c3label : Label := { repo := none, package := none, name := "x" }

def c4ctx : BazelContext :=
  { workspaces := [], infoF := fun _ => .error (),
    dumpRepoMapping := fun _ _ => .error (),
    queryF := fun _ _ => .error () }

/-- C4 fixture filesystem: `/pkg` holds a `BUILD` file and a subdirectory
`sub`; the path `/pkg/sub` exists but is a directory, not a file. -/
def c4fs : Filesystem :=
  { kind := fun p =>
      if p = ["pkg"] then some .dir
      else if p = ["pkg", "BUILD"] then some .file
      else if p = ["pkg", "sub"] then some .dir
      else none,
    contents := fun _ => "",
    listDir := fun _ => .error () }

def c5ctx : BazelContext :=
  { workspaces := [], infoF := fun _ => .error (),
    dumpRepoMapping := fun _ _ => .error (),
    queryF := fun _ _ => .error () }

/-- C5 fixture filesystem: `/p/BUILD` and `/p/bar.bzl` both exist. -/
def c5fs : Filesystem :=
  { kind := fun p =>
      if p = ["p", "bar.bzl"] then some .file
      else if p = ["p", "BUILD"] then some .file
      else none,
    contents := fun _ => "",
    listDir := fun _ => .error () }

def c7ws : BazelWorkspace :=
  { root := ["root"], workspace_name := none,
    get_repository_path := fun n => ["ext", n],
    get_repository_for_lspurl := fun _ => none,
    get_repository_for_path := fun _ => none,
    get_repository_names := [] }

/-- C7 fixture context: the query collaborator answers only the pattern
`:*` (which is what the code sends for an empty completion root) and fails
for the pattern `*` (root string + `*`, which the claim predicts). -/
def c7ctx : BazelContext :=
  { workspaces := [(["root"], c7ws)], infoF := fun _ => .error (),
    dumpRepoMapping := fun _ _ => .ok [],
    queryF := fun _ q => if q = ":*" then .ok ":main\n" else .error () }

def c7fs : Filesystem :=
  { kind := fun p =>
      if p = ["pkg"] then some .dir
      else if p = ["pkg", "BUILD"] then some .file
      else none,
    contents := fun _ => "",
    listDir := fun p => if p = ["pkg"] then .ok ["BUILD"] else .error () }

/-- C7 witness context: query collaborator answering pattern `//pkg:*`. -/
def c7ctxB : BazelContext :=
  { workspaces := [(["root"], c7ws)], infoF := fun _ => .error (),
    dumpRepoMapping := fun _ _ => .ok [],
    queryF := fun _ q => if q = "//pkg:*" then .ok "//pkg:main\n" else .error () }

def c7fsB : Filesystem :=
  { kind := fun p =>
      if p = ["root", "pkg"] then some .dir
      else if p = ["root", "pkg", "BUILD"] then some .file
      else none,
    contents := fun _ => "",
    listDir := fun p => if p = ["root", "pkg"] then .ok ["BUILD"] else .error () }

def c8ws : BazelWorkspace :=
  { root := ["root"], workspace_name := none,
    get_repository_path := fun n => ["ext", n],
    get_repository_for_lspurl := fun _ => none,
    get_repository_for_path := fun _ => none,
    get_repository_names := ["raw"] }

/-- C8 fixture context: the repo-mapping dump always fails. -/
def c8ctx : BazelContext :=
  { workspaces := [(["root"], c8ws)], infoF := fun _ => .error (),
    dumpRepoMapping := fun _ _ => .error (),
    queryF := fun _ _ => .error () }

/-- C8 fixture filesystem: every directory listing fails. -/
def c8fs : Filesystem :=
  { kind := fun _ => none, contents := fun _ => "", listDir := fun _ => .error () }

def c9ws : BazelWorkspace :=
  { root := ["w"], workspace_name := none,
    get_repository_path := fun n => ["ext", n],
    get_repository_for_lspurl := fun _ => none,
    get_repository_for_path := fun _ => none,
    get_repository_names := [] }

/-- C9 fixture filesystem: the marker file lives in `/a` and redirects the
workspace root to `/w`. -/
def c9fs : Filesystem :=
  { kind := fun p => if p = ["a", "DO_NOT_BUILD_HERE"] then some .file else none,
    contents := fun _ => "/w",
    listDir := fun _ => .error () }

def c9ctx : BazelContext :=
  { workspaces := [], infoF := fun d => if d = ["w"] then .ok c9ws else .error (),
    dumpRepoMapping := fun _ _ => .error (),
    queryF := fun _ _ => .error () }

def c10ws : BazelWorkspace :=
  { root := ["root"], workspace_name := none,
    get_repository_path := fun n => ["ext", n],
    get_repository_for_lspurl := fun _ => none,
    get_repository_for_path := fun _ => none,
    get_repository_names := [] }

/-- C10 fixture context: the repo-mapping dump succeeds and contains the
root repository's self-mapping (empty apparent name). -/
def c10ctx : BazelContext :=
  { workspaces := [(["root"], c10ws)], infoF := fun _ => .error (),
    dumpRepoMapping := fun _ _ => .ok [("", ""), ("repo", "repo~1")],
    queryF := fun _ _ => .error () }

def c10fs : Filesystem :=
  { kind := fun _ => none, contents := fun _ => "", listDir := fun _ => .error () }

/-! ## Helper lemmas -/

theorem strDataAppend (a b : String) : (a ++ b).data = a.data ++ b.data := by
  cases a
  cases b
  rfl

theorem ofChars_data (s : String) : ofChars s.data = s := rfl

theorem splitOnChar_no_sep (c : Char) (l : List Char) (h : ∀ x ∈ l, x ≠ c) :
    splitOnChar c l = [l] := by
  induction l with
  | nil => rfl
  | cons x xs ih =>
      have hx : x ≠ c := h x (List.mem_cons_self x xs)
      have ih2 : splitOnChar c xs = [xs] := ih (fun y hy => h y (List.mem_cons_of_mem x hy))
      simp [splitOnChar, hx, ih2]

theorem forall_ne_of_containsChar_false (s : String) (c : Char)
    (h : strContainsChar s c = false) : ∀ x ∈ s.data, x ≠ c := by
  intro x hx he
  subst he
  have hin : s.data.any (fun y => y == x) = true := List.any_eq_true.mpr ⟨x, hx, by simp⟩
  rw [strContainsChar] at h
  rw [hin] at h
  cases h

theorem pathOfString_single (s : String) (h1 : strContainsChar s '/' = false)
    (h2 : s ≠ "") : pathOfString s = [s] := by
  unfold pathOfString
  rw [splitOnChar_no_sep '/' s.data (forall_ne_of_containsChar_false s '/' h1)]
  simp [ofChars_data, h2]

theorem splitFirst2_none (a : Char) (l : List Char) (h : ∀ x ∈ l, x ≠ a) :
    splitFirst2 a a l = none := by
  match l with
  | [] => rfl
  | [_] => rfl
  | x :: y :: rest =>
      have hx : x ≠ a := h x (by simp)
      have ih := splitFirst2_none a (y :: rest) (fun z hz => h z (List.mem_cons_of_mem x hz))
      simp [splitFirst2, hx, ih]

theorem dropLast_append_getLast_eq {α : Type} (l : List α) (x : α)
    (h : l.getLast? = some x) : l.dropLast ++ [x] = l := by
  match l with
  | [] => simp at h
  | [a] =>
      simp [List.getLast?] at h
      simp [h]
  | a :: b :: rest =>
      have h2 : (b :: rest).getLast? = some x := h
      have ih := dropLast_append_getLast_eq (b :: rest) x h2
      simp only [List.dropLast_cons₂, List.cons_append, ih]

theorem at_append_ne (n : String) (h : n ≠ "") : ("@" ++ n : String) ≠ "@" := by
  intro he
  have hd : ("@" ++ n).data = ("@" : String).data := congrArg String.data he
  rw [strDataAppend] at hd
  have hnil : n.data = [] := by simpa using hd
  apply h
  cases n with
  | mk d =>
      simp only at hnil
      rw [hnil]

theorem mem_ancestorsRevAux_length (l q : List String) (h : q ∈ ancestorsRevAux l) :
    q.length < l.length := by
  match l with
  | [] => simp [ancestorsRevAux] at h
  | x :: rest =>
      simp only [ancestorsRevAux, List.mem_cons] at h
      cases h with
      | inl he => subst he; simp
      | inr hm =>
          have := mem_ancestorsRevAux_length rest q hm
          simp
          omega

theorem not_mem_properAncestors (p : FsPath) : p ∉ properAncestors p := by
  intro h
  unfold properAncestors at h
  obtain ⟨q, hq, he⟩ := List.mem_map.mp h
  have hlen := mem_ancestorsRevAux_length p.reverse q hq
  have : q.reverse.length = p.length := by rw [he]
  simp at this
  simp [List.length_reverse] at hlen
  omega

theorem resolve_root_for_ok (ctx : BazelContext) (label : Label) (cf : LspUrl)
    (ws : BazelWorkspace) : ∃ r, resolve_root_for ctx label cf (some ws) = .ok r := by
  cases hrepo : label.repo with
  | none =>
      cases hb : ws.get_repository_for_lspurl cf with
      | none => exact ⟨some ws.root, by simp [resolve_root_for, hrepo, hb]⟩
      | some rn =>
          exact ⟨some (ws.get_repository_path rn), by simp [resolve_root_for, hrepo, hb]⟩
  | some repository =>
      cases hcond : (ws.workspace_name == some repository) with
      | true => exact ⟨some ws.root, by simp [resolve_root_for, hrepo, hcond]⟩
      | false =>
          exact ⟨some (ws.get_repository_path
            ((lookupMap (((repo_mapping_for_file ctx ws cf).toOption).getD []) repository).getD
              repository)),
            by simp [resolve_root_for, hrepo, hcond]⟩

theorem resolve_root_for_ok_norepo (ctx : BazelContext) (label : Label) (cf : LspUrl)
    (wsOpt : Option BazelWorkspace) (h : label.repo = none) :
    ∃ r, resolve_root_for ctx label cf wsOpt = .ok r := by
  cases hb : wsOpt.bind (fun ws => ws.get_repository_for_lspurl cf) with
  | none => exact ⟨wsOpt.map (fun ws => ws.root), by simp [resolve_root_for, h, hb]⟩
  | some rn =>
      exact ⟨wsOpt.map (fun ws => ws.get_repository_path rn),
        by simp [resolve_root_for, h, hb]⟩

theorem entryResults_kind_ne_module (ctx : BazelContext) (fs : Filesystem)
    (wsOpt : Option BazelWorkspace) (opts : FilesystemCompletionOptions)
    (rb : String) (dir : FsPath) (nm : String) (c : StringCompletionResult)
    (hc : c ∈ entryResults ctx fs wsOpt opts rb dir nm) :
    c.kind ≠ CompletionItemKind.module := by
  simp only [entryResults] at hc
  split at hc
  · simp only [List.mem_singleton] at hc
    subst hc
    simp
  · split at hc
    · split at hc
      · split at hc
        · split at hc
          · obtain ⟨t, ht, he⟩ := List.mem_map.mp hc
            subst he
            simp
          · simp at hc
        · simp at hc
      · split at hc
        · simp at hc
        · split at hc
          · simp at hc
          · simp only [List.mem_singleton] at hc
            subst hc
            simp
    · simp at hc

theorem get_filesystem_entries_mem (ctx : BazelContext) (fs : Filesystem)
    (root : FilesystemCompletionRoot) (uri : LspUrl) (wsOpt : Option BazelWorkspace)
    (opts : FilesystemCompletionOptions) (res l : List StringCompletionResult)
    (h : get_filesystem_entries ctx fs root uri wsOpt opts res = .ok l) :
    ∀ c ∈ l, c ∈ res ∨ c.kind ≠ CompletionItemKind.module := by
  simp only [get_filesystem_entries] at h
  split at h
  · cases h
  · split at h
    · cases h
    · injection h with hl
      subst hl
      intro c hc
      rcases List.mem_append.mp hc with hres | hbind
      · exact Or.inl hres
      · obtain ⟨nm, hnm, hcm⟩ := List.mem_flatMap.mp hbind
        exact Or.inr (entryResults_kind_ne_module _ _ _ _ _ _ _ _ hcm)

theorem completionEnumeration_mem (ctx : BazelContext) (fs : Filesystem) (uri : LspUrl)
    (kind : StringCompletionType) (cv : String) (wsOpt : Option BazelWorkspace)
    (names l : List StringCompletionResult)
    (h : completionEnumeration ctx fs uri kind cv wsOpt names = .ok l) :
    ∀ c ∈ l, c ∈ names ∨ c.kind ≠ CompletionItemKind.module := by
  simp only [completionEnumeration] at h
  split at h
  · split at h
    · exact get_filesystem_entries_mem _ _ _ _ _ _ _ _ h
    · injection h with hl
      subst hl
      exact fun c hc => Or.inl hc
  · injection h with hl
    subst hl
    exact fun c hc => Or.inl hc

/-! ## Claim C1 -/

/-- C1 counterexample: with a workspace present, a label naming the
repository `unknown` — whose translated name (identity, the dump is empty)
is neither the legacy workspace name `main` nor among the workspace's known
repository names — does NOT fail with `UnknownRepository`: `resolve_folder`
silently resolves it to the repository-path lookup `ext/unknown`. -/
theorem c1_counterexample :
    resolve_folder c1ctx c1label (.file ["root", "BUILD"]) (some c1ws) =
      .ok ["ext", "unknown"] ∧
    c1ws.workspace_name ≠ some "unknown" ∧
    "unknown" ∉ c1ws.get_repository_names ∧
    c1ctx.dumpRepoMapping c1ws "" = .ok [] := by
  refine ⟨rfl, by decide, by decide, rfl⟩

/-- C1 (amended): `resolve_folder` fails with `UnknownRepository` exactly
when the label carries a repository name and no workspace is available;
when a workspace is present, any repository name (known or not) resolves
without an `UnknownRepository` error. -/
theorem c1_unknown_repository (ctx : BazelContext) (label : Label)
    (current_file : LspUrl) (repo : String) (h : label.repo = some repo) :
    resolve_folder ctx label current_file none =
      .error (.UnknownRepository label repo) ∧
    ∀ (ws : BazelWorkspace) (l : Label) (r : String),
      resolve_folder ctx label current_file (some ws) ≠
        .error (.UnknownRepository l r) := by
  constructor
  · simp [resolve_folder, resolve_root_for, h]
  · intro ws l r hcontra
    obtain ⟨rr, hrr⟩ := resolve_root_for_ok ctx label current_file ws
    simp only [resolve_folder, hrr] at hcontra
    repeat' split at hcontra
    all_goals simp at hcontra

/-- C1 witness. -/
theorem c1_witness :
    c1label.repo = some "unknown" ∧
    (resolve_folder c1ctx c1label (.file ["root", "BUILD"]) none =
        .error (.UnknownRepository c1label "unknown") ∧
      ∀ (ws : BazelWorkspace) (l : Label) (r : String),
        resolve_folder c1ctx c1label (.file ["root", "BUILD"]) (some ws) ≠
          .error (.UnknownRepository l r)) :=
  ⟨rfl, c1_unknown_repository c1ctx c1label (.file ["root", "BUILD"]) "unknown" rfl⟩

/-! ## Claim C2 -/

/-- C2 counterexample: the repo mapping translates the apparent name `x` to
`ws`, which equals the legacy workspace name, yet `resolve_folder` does NOT
use the workspace root: the workspace-name check compares the raw
(untranslated) label repository name, so the label resolves to the
repository path of the translated name instead. -/
theorem c2_counterexample :
    resolve_folder c2ctx c2label (.file ["root", "BUILD"]) (some c2ws) =
      .ok ["ext", "ws", "p"] ∧
    lookupMap [("x", "ws")] "x" = some "ws" ∧
    c2ws.workspace_name = some "ws" ∧
    (["ext", "ws", "p"] : FsPath) ≠ c2ws.root ++ ["p"] :=
  ⟨rfl, rfl, rfl, by decide⟩

/-- C2 (amended): with a workspace present, a label carrying a repository
name and a package resolves to the workspace root exactly when the label's
RAW repository name (before translation) equals the legacy workspace name;
otherwise to the repository path of the name translated through the repo
mapping computed for the current file (identity when absent), which always
succeeds; the chosen root is joined with the package. -/
theorem c2_raw_name_precedence (ctx : BazelContext) (ws : BazelWorkspace) (label : Label)
    (current_file : LspUrl) (repo : String) (pkg : List String)
    (h1 : label.repo = some repo) (h2 : label.package = some pkg) :
    resolve_folder ctx label current_file (some ws) =
      .ok ((if ws.workspace_name = some repo then ws.root
            else ws.get_repository_path
              ((lookupMap (((repo_mapping_for_file ctx ws current_file).toOption).getD [])
                  repo).getD repo)) ++ pkg) := by
  by_cases hcond : ws.workspace_name = some repo
  · simp [resolve_folder, resolve_root_for, h1, h2, hcond]
  · simp [resolve_folder, resolve_root_for, h1, h2, hcond]

/-- C2 witness. -/
theorem c2_witness :
    c2label.repo = some "x" ∧ c2label.package = some ["p"] ∧
    resolve_folder c2ctx c2label (.file ["root", "BUILD"]) (some c2ws) =
      .ok ((if c2ws.workspace_name = some "x" then c2ws.root
            else c2ws.get_repository_path
              ((lookupMap
                  (((repo_mapping_for_file c2ctx c2ws (.file ["root", "BUILD"])).toOption).getD [])
                  "x").getD "x")) ++ ["p"]) :=
  ⟨rfl, rfl, c2_raw_name_precedence c2ctx c2ws c2label (.file ["root", "BUILD"]) "x" ["p"] rfl rfl⟩

/-! ## Claim C3 -/

/-- C3 counterexample: for a package-less label with a non-filesystem
current file, `resolve_folder` fails with `WrongScheme`, not with the
"missing current file path" error the claim names. -/
theorem c3_counterexample :
    resolve_folder c3ctx c3label (.starlark ["v"]) none =
      .error (.WrongScheme "file://" (.starlark ["v"])) ∧
    ResolveLoadError.WrongScheme "file://" (.starlark ["v"]) ≠
      ResolveLoadError.MissingCurrentFilePath c3label :=
  ⟨rfl, by decide⟩

/-- C3 (amended): for a label with no package (whose repository portion does
not itself fail, i.e. the label has no repository or a workspace is
present), `resolve_folder` returns the parent directory of the current file;
it fails with `WrongScheme` when the current file is not a filesystem
location, and with `MissingCurrentFilePath` when the current file's path has
no parent. -/
theorem c3_packageless_resolution (ctx : BazelContext) (label : Label)
    (current_file : LspUrl) (wsOpt : Option BazelWorkspace)
    (h1 : label.package = none)
    (h2 : label.repo = none ∨ ∃ w, wsOpt = some w) :
    resolve_folder ctx label current_file wsOpt =
      match current_file with
      | .file p =>
          match pathParent p with
          | some d => .ok d
          | none => .error (.MissingCurrentFilePath label)
      | _ => .error (.WrongScheme "file://" current_file) := by
  have hok : ∃ r, resolve_root_for ctx label current_file wsOpt = .ok r := by
    rcases h2 with hr | ⟨w, hw⟩
    · exact resolve_root_for_ok_norepo ctx label current_file wsOpt hr
    · rw [hw]
      exact resolve_root_for_ok ctx label current_file w
  obtain ⟨r, hr⟩ := hok
  simp only [resolve_folder, hr, h1]

/-- C3 witness. -/
theorem c3_witness :
    c3label.package = none ∧
    resolve_folder c3ctx c3label (.file ["a", "b"]) none = .ok ["a"] := by
  constructor
  · rfl
  · exact c3_packageless_resolution c3ctx c3label (.file ["a", "b"]) none rfl (Or.inl rfl)

/-! ## Claim C4 -/

/-- C4 counterexample: `resolve_load` checks plain existence of the presumed
path, not file-ness: here `/pkg/sub` exists as a DIRECTORY, and
`resolve_load` returns it rather than falling through to the existing build
file `/pkg/BUILD` as the claim ("exists as a file") predicts. -/
theorem c4_counterexample :
    resolve_load c4ctx c4fs ":sub" (.file ["pkg", "BUILD"]) none =
      .ok (.file ["pkg", "sub"]) ∧
    c4fs.kind ["pkg", "sub"] = some .dir ∧
    c4fs.kind ["pkg", "BUILD"] = some FileKind.file :=
  ⟨rfl, rfl, rfl⟩

/-- C4 (amended): once the label parses, the workspace resolves and the
folder resolves, `resolve_load` returns `folder/target_name` if that path
exists (as a file OR a directory); otherwise the first recognized build-file
name in the fixed priority order that exists inside the folder; otherwise it
fails with `TargetNotFound` carrying the original label text. -/
theorem c4_resolve_load_fallback (ctx : BazelContext) (fs : Filesystem) (path : String)
    (current_file : LspUrl) (workspace_root : Option FsPath) (label : Label)
    (wsOpt : Option BazelWorkspace) (folder : FsPath)
    (h1 : Label.parse path = .ok label)
    (h2 : ctx.workspace fs workspace_root current_file = .ok wsOpt)
    (h3 : resolve_folder ctx label current_file wsOpt = .ok folder) :
    resolve_load ctx fs path current_file workspace_root =
      resolve_load_spec fs folder label.name path := by
  simp only [resolve_load, resolve_load_spec, h1, h2, h3]

/-- C4 witness. -/
theorem c4_witness :
    Label.parse ":nope" = .ok { repo := none, package := none, name := "nope" } ∧
    c4ctx.workspace c4fs none (.file ["pkg", "BUILD"]) = .ok none ∧
    resolve_folder c4ctx { repo := none, package := none, name := "nope" }
      (.file ["pkg", "BUILD"]) none = .ok ["pkg"] ∧
    resolve_load c4ctx c4fs ":nope" (.file ["pkg", "BUILD"]) none =
      resolve_load_spec c4fs ["pkg"] "nope" ":nope" :=
  ⟨rfl, rfl, rfl,
    c4_resolve_load_fallback c4ctx c4fs ":nope" (.file ["pkg", "BUILD"]) none
      { repo := none, package := none, name := "nope" } none ["pkg"] rfl rfl rfl⟩

/-! ## Claim C5 -/

/-- C5: same-package round trip. If the target file and the current file
share the same parent directory, `render_as_load` returns `:` followed by
the target's file name, and `resolve_load` applied to that rendered string
from the same current file returns the original target file. -/
theorem c5_same_package_round_trip (ctx : BazelContext) (fs : Filesystem)
    (tp cp d : FsPath) (fn : String) (wr : Option FsPath) (w : Option BazelWorkspace)
    (htp : pathParent tp = some d) (hcp : pathParent cp = some d)
    (hfn : pathFileName tp = some fn)
    (hslash : strContainsChar fn '/' = false) (hne : fn ≠ "")
    (hws : ctx.workspace fs wr (.file cp) = .ok w)
    (hex : fs.pathExists tp = true) :
    render_as_load ctx fs (.file tp) (.file cp) wr = .ok (":" ++ fn) ∧
    resolve_load ctx fs (":" ++ fn) (.file cp) wr = .ok (.file tp) := by
  have hdata : (":" ++ fn).data = ':' :: fn.data := by
    rw [strDataAppend]
    rfl
  have hnosplit : splitFirst2 '/' '/' ((":" ++ fn).data) = none := by
    rw [hdata]
    apply splitFirst2_none
    intro x hx
    rcases List.mem_cons.mp hx with he | hm
    · subst he
      decide
    · exact forall_ne_of_containsChar_false fn '/' hslash x hm
  have hstarts : strStartsWith (":" ++ fn) ":" = true := by
    unfold strStartsWith
    rw [hdata]
    simp [stripPre]
  have hparse : Label.parse (":" ++ fn) = .ok { repo := none, package := none, name := fn } := by
    unfold Label.parse
    rw [hnosplit, if_pos hstarts, hdata]
    simp [ofChars_data]
  have htpe : tp = d ++ [fn] := by
    have h1 := dropLast_append_getLast_eq tp fn hfn
    cases tp with
    | nil => simp [pathParent] at htp
    | cons a rest =>
        simp only [pathParent] at htp
        injection htp with hd
        rw [← hd]
        exact h1.symm
  have hjoin : joinStr d fn = tp := by
    rw [joinStr, pathOfString_single fn hslash hne, htpe]
  constructor
  · simp only [render_as_load, hws]
    rw [htp, hcp]
    simp [hfn]
  · obtain ⟨r, hr⟩ := resolve_root_for_ok_norepo ctx
      { repo := none, package := none, name := fn } (.file cp) w rfl
    have hfold : resolve_folder ctx { repo := none, package := none, name := fn }
        (.file cp) w = .ok d := by
      simp only [resolve_folder, hr]
      simp [hcp]
    simp only [resolve_load, hparse, hws, hfold]
    simp [hjoin, hex]

/-- C5 witness. -/
theorem c5_witness :
    pathParent ["p", "bar.bzl"] = some ["p"] ∧
    pathParent ["p", "BUILD"] = some ["p"] ∧
    pathFileName ["p", "bar.bzl"] = some "bar.bzl" ∧
    strContainsChar "bar.bzl" '/' = false ∧
    ("bar.bzl" : String) ≠ "" ∧
    c5ctx.workspace c5fs none (.file ["p", "BUILD"]) = .ok none ∧
    c5fs.pathExists ["p", "bar.bzl"] = true ∧
    render_as_load c5ctx c5fs (.file ["p", "bar.bzl"]) (.file ["p", "BUILD"]) none =
      .ok (":" ++ "bar.bzl") ∧
    resolve_load c5ctx c5fs (":" ++ "bar.bzl") (.file ["p", "BUILD"]) none =
      .ok (.file ["p", "bar.bzl"]) := by
  have h := c5_same_package_round_trip c5ctx c5fs ["p", "bar.bzl"] ["p", "BUILD"] ["p"]
    "bar.bzl" none none rfl rfl rfl (by decide) (by decide) rfl rfl
  exact ⟨rfl, rfl, rfl, by decide, by decide, rfl, rfl, h.1, h.2⟩

/-! ## Claim C6 -/

/-- C6: the completion classification booleans computed by
`get_string_completion_options` agree exactly with the spec's formulas:
repository names are offered iff the partial input is empty, exactly `@`,
starts with `@` without `/`, or contains neither `/` nor `:`;
`complete_directories` iff (no leading `@` or contains `//`) and no `:`;
`complete_filenames` iff (no leading `@` or contains `//`) and (no `/` or
contains `:`); `complete_targets` iff the generic string kind is requested
and `complete_filenames` holds. -/
theorem c6_completion_classification (s : String) (k : StringCompletionType) :
    (offer_repository_names_for s = true ↔
      (s = "" ∨ s = "@" ∨ (strStartsWith s "@" = true ∧ strContainsChar s '/' = false)
        ∨ (strContainsChar s '/' = false ∧ strContainsChar s ':' = false)))
    ∧ (complete_directories_for s = true ↔
      ((strStartsWith s "@" = false ∨ strContainsSub s "//" = true)
        ∧ strContainsChar s ':' = false))
    ∧ (complete_filenames_for s = true ↔
      ((strStartsWith s "@" = false ∨ strContainsSub s "//" = true)
        ∧ (strContainsChar s '/' = false ∨ strContainsChar s ':' = true)))
    ∧ (complete_targets_for k s = true ↔
      (k = StringCompletionType.string ∧ complete_filenames_for s = true)) := by
  refine ⟨?_, ?_, ?_, ?_⟩
  · simp only [offer_repository_names_for, Bool.or_eq_true, Bool.and_eq_true,
      Bool.not_eq_true', beq_iff_eq]
    tauto
  · simp [complete_directories_for]
  · simp [complete_filenames_for]
  · cases k <;> simp [complete_targets_for]

/-! ## Claim C7 -/

/-- C7 counterexample: completing the empty string (completion root is the
document's directory, root string empty) against a package containing a
build file produces a target candidate `main`, although the query
collaborator FAILS for the pattern `root string + "*"` (= `*`): the code
actually queried with pattern `:*` (a `:` is appended before the `*` when
the root string does not already end with `:`), contradicting the claimed
pattern. -/
theorem c7_counterexample :
    get_string_completion_options c7ctx c7fs (.file ["pkg", "BUILD"]) .string ""
        (some ["root"]) =
      .ok [{ value := "main", insert_text := some ":main", insert_text_offset := 0,
             kind := .property }] ∧
    c7ctx.queryF c7ws ("" ++ "*") = .error () :=
  ⟨rfl, rfl⟩

/-- C7 (amended): with target completion enabled, a build file among the
resolved directory's entries triggers a query whose pattern is the root
string, followed by `:` unless the root string already ends with `:`,
followed by `*`; every query output line from which that prefix can be
stripped becomes a target-kind candidate whose insertion offset equals the
length of the root string. -/
theorem c7_target_query_pattern (ctx : BazelContext) (fs : Filesystem) (uri : LspUrl)
    (ws : BazelWorkspace) (opts : FilesystemCompletionOptions) (str : String) (lab : Label)
    (dir : FsPath) (entries : List String) (nm : String) (out : String)
    (res resl : List StringCompletionResult)
    (htargets : opts.targets = true)
    (hparse : Label.parse str = .ok lab)
    (hdir : resolve_folder ctx lab uri (some ws) = .ok dir)
    (hls : fs.listDir dir = .ok entries)
    (hmem : nm ∈ entries)
    (hkind : fs.kind (dir ++ [nm]) = some FileKind.file)
    (hbuild : FileType.from_name nm = .build)
    (hout : ctx.queryF ws
        ((str ++ (if strEndsWithChar str ':' then "" else ":")) ++ "*") = .ok out)
    (hres : get_filesystem_entries ctx fs (.str str) uri (some ws) opts res = .ok resl) :
    ∀ line ∈ rustLines out, ∀ t,
      stripPrefixStr line (str ++ (if strEndsWithChar str ':' then "" else ":")) = some t →
      { value := t,
        insert_text := some ((if strEndsWithChar str ':' then "" else ":") ++ t),
        insert_text_offset := strLen str,
        kind := CompletionItemKind.property } ∈ resl := by
  intro line hline t ht
  simp only [get_filesystem_entries, hparse, hdir, hls] at hres
  injection hres with hl
  subst hl
  apply List.mem_append.mpr
  right
  apply List.mem_flatMap.mpr
  refine ⟨nm, hmem, ?_⟩
  have hisdir : fs.isDir (dir ++ [nm]) = false := by simp [Filesystem.isDir, hkind]
  have hisfile : fs.isFile (dir ++ [nm]) = true := by simp [Filesystem.isFile, hkind]
  have hq : query_buildable_targets ctx (str ++ (if strEndsWithChar str ':' then "" else ":"))
      (some ws) =
      some ((rustLines out).filterMap
        (fun l2 => stripPrefixStr l2 (str ++ (if strEndsWithChar str ':' then "" else ":")))) := by
    simp [query_buildable_targets, hout]
  simp only [entryResults, hisdir, hisfile, hbuild, htargets, hq, Bool.false_and]
  simp only [Bool.false_eq_true, if_false, if_true, ite_true, ite_false, ite_self,
    reduceIte]
  refine List.mem_map.mpr ⟨t, List.mem_filterMap.mpr ⟨line, hline, ht⟩, rfl⟩

/-- C7 witness. -/
theorem c7_witness :
    ({ directories := true, files := .all, targets := true } :
        FilesystemCompletionOptions).targets = true ∧
    get_filesystem_entries c7ctxB c7fsB (.str "//pkg:") (.file ["root", "BUILD"])
        (some c7ws) { directories := true, files := .all, targets := true } [] =
      .ok [{ value := "main", insert_text := some "main", insert_text_offset := 6,
             kind := .property }] ∧
    { value := "main", insert_text := some "main", insert_text_offset := 6,
      kind := CompletionItemKind.property } ∈
      [({ value := "main", insert_text := some "main", insert_text_offset := 6,
          kind := CompletionItemKind.property } : StringCompletionResult)] := by
  refine ⟨rfl, rfl, ?_⟩
  have h := c7_target_query_pattern c7ctxB c7fsB (.file ["root", "BUILD"]) c7ws
    { directories := true, files := .all, targets := true } "//pkg:"
    { repo := none, package := some ["pkg"], name := "" } ["root", "pkg"] ["BUILD"] "BUILD"
    "//pkg:main\n" []
    [{ value := "main", insert_text := some "main", insert_text_offset := 6,
       kind := .property }]
    rfl rfl rfl rfl (by decide) rfl rfl rfl rfl
  exact h "//pkg:main" (by decide) "main" (by decide)

/-! ## Claim C8 -/

/-- C8 counterexample: a completion request in which the repo-mapping dump
fails does NOT always succeed: here the subsequent directory listing fails
and the request returns an io error to the caller (the mapping failure
itself is not what aborts it). -/
theorem c8_counterexample :
    get_string_completion_options c8ctx c8fs (.file ["root", "BUILD"]) .string "//x/"
        (some ["root"]) = .error .ioErr ∧
    repo_mapping_for_file c8ctx c8ws (.file ["root", "BUILD"]) = .error () :=
  ⟨rfl, rfl⟩

/-- C8 (amended): a repo-mapping failure never aborts the request by itself
and leaves no trace beyond the candidate source: the whole request computes
exactly as the enumeration applied to repository-name candidates drawn from
the workspace's raw repository list (or the empty list when no workspace
exists); any remaining failure comes from the enumeration itself,
independent of the mapping. -/
theorem c8_mapping_failure_fallback (ctx : BazelContext) (fs : Filesystem) (uri : LspUrl)
    (kind : StringCompletionType) (cv : String) (wr : Option FsPath)
    (wsOpt : Option BazelWorkspace)
    (hws : ctx.workspace fs wr uri = .ok wsOpt)
    (hfail : ∀ ws, wsOpt = some ws → repo_mapping_for_file ctx ws uri = .error ()) :
    get_string_completion_options ctx fs uri kind cv wr =
      completionEnumeration ctx fs uri kind cv wsOpt
        (if offer_repository_names_for cv then
           match wsOpt with
           | some ws => repoNameCandidates ws.get_repository_names
           | none => []
         else []) := by
  have hmap : wsOpt.bind (fun ws => (repo_mapping_for_file ctx ws uri).toOption) = none := by
    cases wsOpt with
    | none => rfl
    | some ws => simp [hfail ws rfl, Except.toOption]
  simp only [get_string_completion_options, hws, hmap]
  cases wsOpt <;> rfl

/-- C8 witness. -/
theorem c8_witness :
    c8ctx.workspace c8fs (some ["root"]) (.file ["root", "BUILD"]) = .ok (some c8ws) ∧
    get_string_completion_options c8ctx c8fs (.file ["root", "BUILD"]) .string "@"
        (some ["root"]) =
      completionEnumeration c8ctx c8fs (.file ["root", "BUILD"]) .string "@" (some c8ws)
        (if offer_repository_names_for "@" then
           match some c8ws with
           | some ws => repoNameCandidates ws.get_repository_names
           | none => []
         else []) := by
  refine ⟨rfl, ?_⟩
  exact c8_mapping_failure_fallback c8ctx c8fs (.file ["root", "BUILD"]) .string "@"
    (some ["root"]) (some c8ws) rfl (fun ws h => by cases h; rfl)

/-! ## Claim C9 -/

/-- C9: workspace-root determination uses the explicit caller-supplied root
when present; otherwise, for filesystem urls, it walks the file's proper
ancestors (never the file itself) outward and the first one containing the
`DO_NOT_BUILD_HERE` marker wins, the marker file's entire contents being
read back as the root path; with no marker, or a non-filesystem url, no
workspace is resolved. -/
theorem c9_workspace_root_determination (ctx : BazelContext) (fs : Filesystem) :
    (∀ (d : FsPath) (cf : LspUrl), ctx.workspace fs (some d) cf = workspaceForRoot ctx d)
    ∧ (∀ p : FsPath, p ∉ properAncestors p)
    ∧ (∀ (p a : FsPath),
        (properAncestors p).find?
            (fun dir => fs.pathExists (dir ++ ["DO_NOT_BUILD_HERE"])) = some a →
        ctx.workspace fs none (.file p) =
          workspaceForRoot ctx (pathOfString (fs.contents (a ++ ["DO_NOT_BUILD_HERE"]))))
    ∧ (∀ p : FsPath,
        (properAncestors p).find?
            (fun dir => fs.pathExists (dir ++ ["DO_NOT_BUILD_HERE"])) = none →
        ctx.workspace fs none (.file p) = .ok none)
    ∧ (∀ q : FsPath, ctx.workspace fs none (.starlark q) = .ok none ∧
        ctx.workspace fs none (.other q) = .ok none) := by
  refine ⟨fun d cf => rfl, not_mem_properAncestors, ?_, ?_, fun q => ⟨rfl, rfl⟩⟩
  · intro p a hfind
    simp [BazelContext.workspace, infer_workspace_dir, hfind]
  · intro p hfind
    simp [BazelContext.workspace, infer_workspace_dir, hfind]

/-- C9 witness. -/
theorem c9_witness :
    ((properAncestors ["a", "b"]).find?
        (fun dir => c9fs.pathExists (dir ++ ["DO_NOT_BUILD_HERE"])) = some ["a"]) ∧
    c9ctx.workspace c9fs none (.file ["a", "b"]) =
      workspaceForRoot c9ctx (pathOfString (c9fs.contents (["a"] ++ ["DO_NOT_BUILD_HERE"]))) := by
  have hfind : (properAncestors ["a", "b"]).find?
      (fun dir => c9fs.pathExists (dir ++ ["DO_NOT_BUILD_HERE"])) = some ["a"] := by decide
  exact ⟨hfind, (c9_workspace_root_determination c9ctx c9fs).2.2.1 ["a", "b"] ["a"] hfind⟩

/-! ## Claim C10 -/

/-- C10: when the repo mapping is obtained successfully, the repository-name
candidates exclude the entry with the empty apparent name, so no
module-kind candidate has the bare value `@`. -/
theorem c10_no_empty_repo_candidate (ctx : BazelContext) (fs : Filesystem) (uri : LspUrl)
    (kind : StringCompletionType) (cv : String) (wr : Option FsPath)
    (ws : BazelWorkspace) (m : RepoMapping) (l : List StringCompletionResult)
    (hws : ctx.workspace fs wr uri = .ok (some ws))
    (hm : repo_mapping_for_file ctx ws uri = .ok m)
    (hres : get_string_completion_options ctx fs uri kind cv wr = .ok l) :
    ∀ c ∈ l, c.kind = CompletionItemKind.module → c.value ≠ "@" := by
  intro c hc hkind
  simp only [get_string_completion_options, hws, Option.some_bind, hm,
    Except.toOption] at hres
  have hmem := completionEnumeration_mem _ _ _ _ _ _ _ _ hres c hc
  rcases hmem with hin | hk
  · cases hoffer : offer_repository_names_for cv with
    | false =>
        rw [hoffer] at hin
        simp at hin
    | true =>
        rw [hoffer] at hin
        simp only [if_true, ite_true] at hin
        obtain ⟨n, hn, hcn⟩ := List.mem_map.mp hin
        have hne : n ≠ "" := by
          have := (List.mem_filter.mp hn).2
          simpa using this
        have := at_append_ne n hne
        rw [← hcn]
        exact this
  · exact absurd hkind hk

/-- C10 witness. -/
theorem c10_witness :
    repo_mapping_for_file c10ctx c10ws (.file ["root", "BUILD"]) =
      .ok [("", ""), ("repo", "repo~1")] ∧
    ({ value := "@repo", insert_text := some "@repo//", insert_text_offset := 0,
       kind := CompletionItemKind.module } : StringCompletionResult).value ≠ "@" := by
  refine ⟨rfl, ?_⟩
  exact c10_no_empty_repo_candidate c10ctx c10fs (.file ["root", "BUILD"]) .string "@"
    (some ["root"]) c10ws [("", ""), ("repo", "repo~1")]
    [{ value := "@repo", insert_text := some "@repo//", insert_text_offset := 0,
       kind := .module }]
    rfl rfl rfl
    { value := "@repo", insert_text := some "@repo//", insert_text_offset := 0,
      kind := .module }
    (by decide) rfl
